import Mathlib

/-!
Shallow embedding of the image-optimization pipeline in `src/optimize.py`
(masroore/python-image-optimizer), together with proofs settling the frozen
claims about its specification.

Modelling conventions:
* A PIL `Image` is a record of width, height, mode string, a pixel function,
  and optional EXIF metadata (an association list from tag number to value).
* Pixels are RGBA quadruples of naturals; the pixel-level behaviour of the
  external codec/filter primitives (resampling kernel, enhancement operators,
  Gaussian blur, mode conversion, alpha compositing) is abstracted into a
  `Prims` record of uninterpreted functions, exactly the collaborators the
  code treats as capabilities.  All geometry (sizes, offsets, dispatch) is
  modelled concretely from the source.
* Python floats are modelled as rationals, machine ints as `Int`/`Nat`.
* `dict.get(k)` accesses are modelled by `Option` fields; `dict[k]` accesses
  and operations that raise in Python are modelled with `Except String`.
* Filesystem paths are lists of components; a file path's name is its last
  component.  Writing a WebP file is modelled by returning a `WebpSave`
  record of the arguments of the `save` call; `mkdir(parents=True,
  exist_ok=True)` is modelled by a `MkdirCall` record.
-/

namespace ImgOpt

/-- RGBA pixel with integral channels. -/
structure Pixel where
  r : ℕ
  g : ℕ
  b : ℕ
  a : ℕ
deriving DecidableEq

/-- In-memory bitmap: size, mode string, pixel function, optional EXIF
association list (tag number to integer value). -/
structure Img where
  width : ℕ
  height : ℕ
  mode : String
  px : ℕ → ℕ → Pixel
  exif : Option (List (ℕ × ℤ))

/-- External image primitives the pipeline calls into (PIL resampling,
enhancement, blur, mode conversion, compositing kernels).  Uninterpreted. -/
structure Prims where
  resample : (ℕ × ℕ) → (ℕ × ℕ) → (ℕ → ℕ → Pixel) → (ℕ → ℕ → Pixel)
  bright : ℚ → Img → Img
  contrast : ℚ → Img → Img
  sharp : ℚ → Img → Img
  blur : ℚ → Img → Img
  pixConvert : String → String → Pixel → Pixel
  acomp : Pixel → Pixel → Pixel
  pasteMix : Pixel → Pixel → Pixel

/-- PIL `Image.new(mode, size, color)`: constant image, no metadata. -/
def Img.new (mode : String) (size : ℕ × ℕ) (color : Pixel) : Img :=
  { width := size.1, height := size.2, mode := mode,
    px := fun _ _ => color, exif := none }

/-- PIL `im.convert(m)`: mode change, pixel translation by the external
conversion kernel.  Metadata is carried along as PIL copies `info`. -/
def Img.convert (P : Prims) (img : Img) (m : String) : Img :=
  { img with mode := m, px := fun x y => P.pixConvert img.mode m (img.px x y) }

/-- PIL `im.resize(size)` with an external resampling kernel. -/
def Img.resize (P : Prims) (img : Img) (size : ℕ × ℕ) : Img :=
  { img with
    width := size.1
    height := size.2
    px := P.resample (img.width, img.height) size img.px }

/-- PIL `base.paste(src)` (no offset, no mask): copy `src` over `base`
starting at the origin. -/
def Img.pasteFull (base src : Img) : Img :=
  { base with px := fun x y =>
      if x < src.width ∧ y < src.height then src.px x y else base.px x y }

/-- PIL `base.paste(src, pos, mask=src)`: within the pasted region the
external masked-paste kernel combines the pixels. -/
def pasteMask (P : Prims) (base src : Img) (pos : ℤ × ℤ) : Img :=
  { base with px := fun x y =>
      let sx : ℤ := (x : ℤ) - pos.1
      let sy : ℤ := (y : ℤ) - pos.2
      if 0 ≤ sx ∧ sx < src.width ∧ 0 ≤ sy ∧ sy < src.height then
        P.pasteMix (base.px x y) (src.px sx.toNat sy.toNat)
      else base.px x y }

/-- PIL `Image.alpha_composite(a, b)`: pointwise external compositing. -/
def alpha_composite (P : Prims) (a b : Img) : Img :=
  { a with px := fun x y => P.acomp (a.px x y) (b.px x y) }

/-- PIL transpose `FLIP_LEFT_RIGHT`: output pixel (x,y) comes from
(w-1-x, y). -/
def flipLR (img : Img) : Img :=
  { img with px := fun x y => img.px (img.width - 1 - x) y }

/-- PIL transpose `FLIP_TOP_BOTTOM`: output pixel (x,y) comes from
(x, h-1-y). -/
def flipTB (img : Img) : Img :=
  { img with px := fun x y => img.px x (img.height - 1 - y) }

/-- PIL transpose `ROTATE_180`: output pixel (x,y) comes from
(w-1-x, h-1-y). -/
def rot180 (img : Img) : Img :=
  { img with px := fun x y => img.px (img.width - 1 - x) (img.height - 1 - y) }

/-- PIL transpose `ROTATE_90` (90° counterclockwise): output size (h, w),
output pixel (x,y) comes from (w-1-y, x). -/
def rot90 (img : Img) : Img :=
  { img with
    width := img.height
    height := img.width
    px := fun x y => img.px (img.width - 1 - y) x }

/-- PIL transpose `ROTATE_270` (90° clockwise): output size (h, w),
output pixel (x,y) comes from (y, h-1-x). -/
def rot270 (img : Img) : Img :=
  { img with
    width := img.height
    height := img.width
    px := fun x y => img.px y (img.height - 1 - x) }

/-- Watermark/webp/thumbnail/blur/adjustments sections are open-ended
`Dict[str, Any]` values in the source; every key any section reads is an
optional field here. -/
structure ConfigDict where
  enabled : Option Bool
  path : Option (List String)
  suffix : Option String
  width : Option ℤ
  height : Option ℤ
  radius : Option ℚ
  quality : Option ℤ
  method : Option ℤ
  lossless : Option Bool
  resize_percentage : Option ℚ
  position : Option String
  padding : Option ℤ
  opacity : Option ℚ
  brightness : Option ℚ
  contrast : Option ℚ
  sharpness : Option ℚ

/-- A `ConfigDict` with every key absent. -/
def ConfigDict.empty : ConfigDict :=
  ⟨none, none, none, none, none, none, none, none,
   none, none, none, none, none, none, none, none⟩

/-- `PipelineConfig` dataclass from the source. -/
structure PipelineConfig where
  orientation_enabled : Bool
  colormode : String
  scaling_enabled : Bool
  adjustments_enabled : Bool
  colormode_enabled : Bool
  scaling : ℤ × ℤ
  adjustments : ConfigDict
  watermark : ConfigDict
  webp_settings : ConfigDict
  thumbnail : ConfigDict
  blur : ConfigDict
  input_dir : List String
  output_dir : List String

/-- EXIF tag number of "Orientation" (0x0112), the tag the source finds by
scanning `ExifTags.TAGS` for the name "Orientation". -/
def orientationTag : ℕ := 274

/-- `fix_orientation` from `src/optimize.py`: apply the EXIF-selected
transpose; disabled, missing metadata, missing tag or out-of-range tag
values leave the image unchanged. -/
def fix_orientation (image : Img) (config : PipelineConfig) : Img :=
  if ¬ config.orientation_enabled then image
  else
    match image.exif with
    | none => image
    | some exif =>
      match exif.lookup orientationTag with
      | none => image
      | some orientation =>
        if orientation = 2 then flipLR image
        else if orientation = 3 then rot180 image
        else if orientation = 4 then flipTB image
        else if orientation = 5 then rot90 (flipLR image)
        else if orientation = 6 then rot270 image
        else if orientation = 7 then rot270 (flipLR image)
        else if orientation = 8 then rot90 image
        else image

/-- Helper of PIL `Image.thumbnail` (Pillow ≥ 9.1, required by the source's
`from PIL.Image import Transpose, Resampling`): `round_aspect(number, key)`
returns whichever of floor/ceil has the smaller key (floor on ties), at
least 1.  Python's `min` keeps the first argument on ties. -/
def roundAspect (number : ℚ) (key : ℤ → ℚ) : ℤ :=
  max (if key ⌈number⌉ < key ⌊number⌋ then ⌈number⌉ else ⌊number⌋) 1

/-- Size computed by PIL `Image.thumbnail((x, y))` for a w×h image: identity
when the box already contains the image, otherwise the image's aspect ratio
decides the binding box edge and the other dimension is rounded by aspect
closeness. -/
def thumbnailSize (w h : ℕ) (x y : ℤ) : ℤ × ℤ :=
  if (w : ℤ) ≤ x ∧ (h : ℤ) ≤ y then ((w : ℤ), (h : ℤ))
  else if (w : ℚ) / (h : ℚ) ≤ (x : ℚ) / (y : ℚ) then
    (roundAspect ((y : ℚ) * ((w : ℚ) / (h : ℚ)))
      (fun n => |(w : ℚ) / (h : ℚ) - (n : ℚ) / (y : ℚ)|), y)
  else
    (x, roundAspect ((x : ℚ) / ((w : ℚ) / (h : ℚ)))
      (fun n => if n = 0 then 0 else |(w : ℚ) / (h : ℚ) - (x : ℚ) / (n : ℚ)|))

/-- PIL `im.thumbnail((x, y), LANCZOS)`: in-place bounded resize; resamples
only when the computed size differs from the current one. -/
def Img.thumbnail (P : Prims) (img : Img) (x y : ℤ) : Img :=
  let sz := thumbnailSize img.width img.height x y
  if sz = ((img.width : ℤ), (img.height : ℤ)) then img
  else Img.resize P img (sz.1.toNat, sz.2.toNat)

/-- `scale_image` from `src/optimize.py`: when enabled and either dimension
exceeds the configured maximum, shrink via `thumbnail`. -/
def scale_image (P : Prims) (image : Img) (config : PipelineConfig) : Img :=
  if ¬ config.scaling_enabled then image
  else
    let max_width := config.scaling.1
    let max_height := config.scaling.2
    if max_width < (image.width : ℤ) ∨ max_height < (image.height : ℤ) then
      Img.thumbnail P image max_width max_height
    else image

/-- `adjust_image` from `src/optimize.py`: brightness, contrast, sharpness
enhancements in that order, each skipped when its factor defaults to or
equals 1.0. -/
def adjust_image (P : Prims) (image : Img) (config : PipelineConfig) : Img :=
  if ¬ config.adjustments_enabled then image
  else
    let adjustments := config.adjustments
    let image :=
      if adjustments.brightness.getD 1 ≠ 1 then
        P.bright (adjustments.brightness.getD 1) image
      else image
    let image :=
      if adjustments.contrast.getD 1 ≠ 1 then
        P.contrast (adjustments.contrast.getD 1) image
      else image
    let image :=
      if adjustments.sharpness.getD 1 ≠ 1 then
        P.sharp (adjustments.sharpness.getD 1) image
      else image
    image

/-- Placement block of `add_watermark` (lines 165–182 of the source): paste
offset from position name, padding, image size and watermark size.  Python's
`//` is floor division, hence `Int.fdiv`. -/
def watermarkPos (position : String) (padding : ℤ)
    (imgW imgH wmW wmH : ℤ) : ℤ × ℤ :=
  if position = "top-left" then (padding, padding)
  else if position = "top-right" then (imgW - wmW - padding, padding)
  else if position = "bottom-left" then (padding, imgH - wmH - padding)
  else if position = "bottom-right" then
    (imgW - wmW - padding, imgH - wmH - padding)
  else if position = "center" then
    (Int.fdiv (imgW - wmW) 2, Int.fdiv (imgH - wmH) 2)
  else (padding, padding)

/-- Opacity block of `add_watermark` (lines 188–190): scale the alpha channel
by the opacity factor; `point` truncates the float product to int. -/
def applyOpacity (img : Img) (t : ℚ) : Img :=
  { img with px := fun x y =>
      let p := img.px x y
      ⟨p.r, p.g, p.b, (⌊(p.a : ℚ) * t⌋).toNat⟩ }

/-- `add_watermark` from `src/optimize.py`.  The filesystem is a lookup from
paths to images (`none` = file absent).  A missing "path" key models the
`KeyError` of `watermark_config["path"]`; a missing "opacity" key models the
`TypeError` of comparing `None < 1.0`. -/
def add_watermark (P : Prims) (image : Img) (config : PipelineConfig)
    (fs : List String → Option Img) : Except String Img :=
  let watermark_config := config.watermark
  if ¬ (watermark_config.enabled.getD false) then .ok image
  else
    match watermark_config.path with
    | none => .error "KeyError: path"
    | some watermark_path =>
      match fs watermark_path with
      | none => .ok image
      | some wmFile =>
        let watermark := Img.convert P wmFile "RGBA"
        let watermark :=
          if 0 < watermark_config.resize_percentage.getD 0 then
            let percent := watermark_config.resize_percentage.getD 0 / 100
            let wm_width : ℤ := ⌊(image.width : ℚ) * percent⌋
            let wm_height : ℤ :=
              ⌊(watermark.height : ℚ) * ((wm_width : ℚ) / (watermark.width : ℚ))⌋
            Img.resize P watermark (wm_width.toNat, wm_height.toNat)
          else watermark
        let transparent := Img.new "RGBA" (image.width, image.height) ⟨0, 0, 0, 0⟩
        let position := watermark_config.position.getD "bottom-right"
        let padding := watermark_config.padding.getD 10
        let pos := watermarkPos position padding image.width image.height
          watermark.width watermark.height
        match watermark_config.opacity with
        | none =>
          .error "TypeError: unorderable NoneType and float"
        | some target_opacity =>
          let watermark :=
            if target_opacity < 1 then applyOpacity watermark target_opacity
            else watermark
          let transparent := pasteMask P transparent watermark pos
          let image := if image.mode ≠ "RGBA" then Img.convert P image "RGBA" else image
          let result := alpha_composite P image transparent
          .ok (Img.convert P result "RGB")

/-- Name (last component) of a path given as a component list. -/
def lastName (p : List String) : String := (p.getLast?).getD ""

/-- Python `pathlib` stem of a file name: the name up to the last dot,
provided that dot is neither the first nor the last character. -/
def pathStem (name : String) : String :=
  let cs := name.data
  match (cs.reverse.findIdx? (fun c => c = '.')).map
      (fun j => cs.length - 1 - j) with
  | some i => if 0 < i ∧ i < cs.length - 1 then String.mk (cs.take i) else name
  | none => name

/-- Record of a `Path.mkdir` call made by the pipeline. -/
structure MkdirCall where
  dir : List String
  parents : Bool
  exist_ok : Bool
deriving DecidableEq

/-- `generate_output_path` from `src/optimize.py`: choose the output
directory (the argument if given, else the config's "path" key, else a
`TypeError`), issue `mkdir(parents=True, exist_ok=True)` on it, and return
`output_dir/{stem}{suffix}.webp`. -/
def generate_output_path (config : ConfigDict) (file_path : List String)
    (output_dir : Option (List String)) :
    Except String (List String × MkdirCall) :=
  let od? := match output_dir with
    | some d => some d
    | none => config.path
  match od? with
  | none => .error "TypeError: Path of NoneType"
  | some od =>
    let base_name := pathStem (lastName file_path)
    let suffix := config.suffix.getD ""
    .ok (od ++ [base_name ++ suffix ++ ".webp"], ⟨od, true, true⟩)

/-- Record of an `Image.save(..., format=WEBP, ...)` call: where it wrote,
what image it wrote, the encoder options passed, and the mkdir effect of the
path generation. -/
structure WebpSave where
  path : List String
  img : Img
  quality : Option ℤ
  method : Option ℤ
  lossless : Option Bool
  mkdir : MkdirCall

/-- `save_webp` from `src/optimize.py`: compute the output path against the
configured output directory, strip metadata by pasting into a fresh image,
and save as WebP with the configured quality/method/lossless options. -/
def save_webp (image : Img) (image_path : List String)
    (config : PipelineConfig) : Except String (List String × WebpSave) := do
  let webp_config := config.webp_settings
  let (output_path, mk) ←
    generate_output_path webp_config image_path (some config.output_dir)
  let clean_img :=
    Img.pasteFull (Img.new image.mode (image.width, image.height) ⟨0, 0, 0, 0⟩)
      image
  .ok (output_path,
    ⟨output_path, clean_img, webp_config.quality, webp_config.method,
     webp_config.lossless, mk⟩)

/-- `recreate_resize_image` from `src/optimize.py`: metadata-stripping copy,
then in-place `thumbnail` to the configured width/height.  Missing
width/height keys surface as the `TypeError` that `math.floor(None)` raises
inside `thumbnail`. -/
def recreate_resize_image (P : Prims) (image : Img) (config : ConfigDict) :
    Except String Img :=
  match config.width, config.height with
  | some target_width, some target_height =>
    let resized :=
      Img.pasteFull (Img.new image.mode (image.width, image.height) ⟨0, 0, 0, 0⟩)
        image
    .ok (Img.thumbnail P resized target_width target_height)
  | _, _ => .error "TypeError: floor of NoneType"

/-- `create_blurred` from `src/optimize.py`: when enabled, bounded-resize
copy, Gaussian blur of the configured radius, save as WebP at the path
generated from the blur config's own "path"/"suffix" keys. -/
def create_blurred (P : Prims) (image : Img) (image_path : List String)
    (config : PipelineConfig) :
    Except String (Option (List String × WebpSave)) := do
  let blur_config := config.blur
  if ¬ (blur_config.enabled.getD false) then .ok none
  else do
    let blurred ← recreate_resize_image P image blur_config
    match blur_config.radius with
    | none => .error "TypeError: GaussianBlur radius None"
    | some blur_radius => do
      let blurred := P.blur blur_radius blurred
      let (output_path, mk) ← generate_output_path blur_config image_path none
      .ok (some (output_path,
        ⟨output_path, blurred, blur_config.quality, blur_config.method,
         none, mk⟩))

/-- `fix_colormode` from `src/optimize.py`: RGB/RGBA targets keep RGBA
inputs, promote LA to RGBA and convert the rest directly; GRAY converts to
L; other targets convert directly; disabled is identity. -/
def fix_colormode (P : Prims) (image : Img) (config : PipelineConfig) : Img :=
  if ¬ config.colormode_enabled then image
  else
    let colormode := config.colormode
    if colormode = "RGB" ∨ colormode = "RGBA" then
      if image.mode = "RGBA" then image
      else if image.mode = "LA" then Img.convert P image "RGBA"
      else Img.convert P image colormode
    else if colormode = "GRAY" then Img.convert P image "L"
    else Img.convert P image colormode

/-- Concrete instantiation of the external primitives, used to evaluate the
pipeline at concrete inputs. -/
def trivPrims : Prims :=
  { resample := fun _ _ f => f
    bright := fun _ i => i
    contrast := fun _ i => i
    sharp := fun _ i => i
    blur := fun _ i => i
    pixConvert := fun _ _ p => p
    acomp := fun p _ => p
    pasteMix := fun _ q => q }

/-- Concrete constant test image. -/
def mkImg (w h : ℕ) (mode : String) (ex : Option (List (ℕ × ℤ))) : Img :=
  { width := w, height := h, mode := mode
    px := fun _ _ => ⟨0, 0, 0, 255⟩, exif := ex }

/-- Concrete baseline configuration for witnesses. -/
def baseCfg : PipelineConfig :=
  { orientation_enabled := true
    colormode := "RGB"
    scaling_enabled := true
    adjustments_enabled := true
    colormode_enabled := true
    scaling := (1920, 1080)
    adjustments := ConfigDict.empty
    watermark := ConfigDict.empty
    webp_settings := ConfigDict.empty
    thumbnail := ConfigDict.empty
    blur := ConfigDict.empty
    input_dir := ["input"]
    output_dir := ["output"] }

/-- Helper vocabulary for stating C8: apply an enhancement only when its
factor is present and differs from 1.0. -/
def optEnh (e : ℚ → Img → Img) (o : Option ℚ) (img : Img) : Img :=
  match o with
  | some v => if v ≠ 1 then e v img else img
  | none => img

/-- Modelled from the spec (claim C6 as stated): both output dimensions are
the floor of the uniform scale factor min(max_w/w, max_h/h) times the
dimension. -/
def floorScaleSpec (w h : ℕ) (maxW maxH : ℤ) : ℤ × ℤ :=
  ((⌊(w : ℚ) * min ((maxW : ℚ) / (w : ℚ)) ((maxH : ℚ) / (h : ℚ))⌋ : ℤ),
   (⌊(h : ℚ) * min ((maxW : ℚ) / (w : ℚ)) ((maxH : ℚ) / (h : ℚ))⌋ : ℤ))

/-- Modelled from the spec (claim C5 as stated): the blurred derivative's
resize step treats the configured width and height as a direct resize
target. -/
def directResizeSpec (P : Prims) (img : Img) (w h : ℤ) : Img :=
  Img.resize P img (w.toNat, h.toNat)

/-- Concrete configuration with a 3×3 scaling box. -/
def cfg33 : PipelineConfig := { baseCfg with scaling := (3, 3) }

/-- Concrete blur config: 50×25 target, radius 2. -/
def blurCfgD : ConfigDict :=
  { ConfigDict.empty with
    enabled := some true
    width := some 50
    height := some 25
    radius := some 2
    quality := some 60
    method := some 4
    path := some ["blurred"] }

/-- Concrete pipeline configuration with the blur stage enabled. -/
def cfgBlur : PipelineConfig := { baseCfg with blur := blurCfgD }

/-- Concrete watermark config: bottom-right, padding 10, opacity 1. -/
def wmCfgD : ConfigDict :=
  { ConfigDict.empty with
    enabled := some true
    path := some ["wm.png"]
    position := some "bottom-right"
    padding := some 10
    opacity := some 1 }

/-- Concrete pipeline configuration with the watermark stage enabled. -/
def cfgWm : PipelineConfig := { baseCfg with watermark := wmCfgD }

/-- Concrete pipeline configuration whose watermark config lacks the
opacity key. -/
def cfgWmNoOpacity : PipelineConfig :=
  { baseCfg with watermark := { wmCfgD with opacity := none } }

/-- Concrete pipeline configuration whose watermark asset path does not
exist on the filesystem. -/
def cfgWmMissing : PipelineConfig :=
  { baseCfg with watermark := { wmCfgD with path := some ["missing.png"] } }

/-- Concrete filesystem containing a 100×50 RGBA watermark at wm.png. -/
def fsWm : List String → Option Img :=
  fun p => if p = ["wm.png"] then some (mkImg 100 50 "RGBA" none) else none

lemma one_le_roundAspect (v : ℚ) (key : ℤ → ℚ) : 1 ≤ roundAspect v key :=
  le_max_right _ _

lemma roundAspect_mem (v : ℚ) (key : ℤ → ℚ) :
    roundAspect v key = ⌊v⌋ ∨ roundAspect v key = ⌈v⌉
    ∨ (roundAspect v key = 1 ∧ ⌊v⌋ < 1) := by
  unfold roundAspect
  rcases max_cases (if key ⌈v⌉ < key ⌊v⌋ then ⌈v⌉ else ⌊v⌋) 1 with ⟨h, h2⟩ | ⟨h, h2⟩
  · rw [h]; by_cases hk : key ⌈v⌉ < key ⌊v⌋ <;> simp [hk]
  · rw [h]
    right; right
    refine ⟨rfl, ?_⟩
    by_cases hk : key ⌈v⌉ < key ⌊v⌋
    · simp only [hk, if_true] at h2
      exact lt_of_le_of_lt (Int.floor_le_ceil v) h2
    · simpa [hk] using h2

lemma roundAspect_le (v : ℚ) (key : ℤ → ℚ) (b : ℤ)
    (hb : 1 ≤ b) (hv : v ≤ (b : ℚ)) : roundAspect v key ≤ b := by
  have hf : ⌊v⌋ ≤ b := by
    have : ⌊v⌋ ≤ ⌊(b : ℚ)⌋ := Int.floor_le_floor hv
    simpa using this
  have hcl : ⌈v⌉ ≤ b := Int.ceil_le.mpr hv
  rcases roundAspect_mem v key with h | h | ⟨h, _⟩ <;> rw [h] <;> omega

lemma roundAspect_close (v : ℚ) (key : ℤ → ℚ) (h0 : 0 ≤ v) :
    |(roundAspect v key : ℚ) - v| ≤ 1 := by
  have hfl := Int.floor_le v
  have hfl2 := Int.sub_one_lt_floor v
  have hcl := Int.le_ceil v
  have hcl2 := Int.ceil_lt_add_one v
  rcases roundAspect_mem v key with h | h | ⟨h, h2⟩ <;> rw [h] <;> rw [abs_le] <;>
    [skip; skip; (have h3 : (⌊v⌋ : ℚ) < 1 := by exact_mod_cast h2)] <;>
    constructor <;> push_cast <;> linarith

lemma thumbnailSize_bounds (w h : ℕ) (x y : ℤ)
    (hw : 0 < w) (hh : 0 < h) (hx : 0 < x) (hy : 0 < y) :
    (thumbnailSize w h x y).1 ≤ (w : ℤ) ∧ (thumbnailSize w h x y).2 ≤ (h : ℤ)
    ∧ (thumbnailSize w h x y).1 ≤ x ∧ (thumbnailSize w h x y).2 ≤ y
    ∧ 1 ≤ (thumbnailSize w h x y).1 ∧ 1 ≤ (thumbnailSize w h x y).2 := by
  have hwQ : (0:ℚ) < (w:ℚ) := by exact_mod_cast hw
  have hhQ : (0:ℚ) < (h:ℚ) := by exact_mod_cast hh
  have hxQ : (0:ℚ) < (x:ℚ) := by exact_mod_cast hx
  have hyQ : (0:ℚ) < (y:ℚ) := by exact_mod_cast hy
  have hx1 : (1:ℤ) ≤ x := by omega
  have hy1 : (1:ℤ) ≤ y := by omega
  have hw1 : (1:ℤ) ≤ (w:ℤ) := by exact_mod_cast hw
  have hh1 : (1:ℤ) ≤ (h:ℤ) := by exact_mod_cast hh
  unfold thumbnailSize
  by_cases hin : (w:ℤ) ≤ x ∧ (h:ℤ) ≤ y
  · rw [if_pos hin]
    exact ⟨le_refl _, le_refl _, hin.1, hin.2, hw1, hh1⟩
  · rw [if_neg hin]
    have hout : x < (w:ℤ) ∨ y < (h:ℤ) := by omega
    by_cases hbr : (w:ℚ) / (h:ℚ) ≤ (x:ℚ) / (y:ℚ)
    · rw [if_pos hbr]
      dsimp only
      have kq : (w:ℚ) * y ≤ x * h := (div_le_div_iff₀ hhQ hyQ).mp hbr
      have hyh : (y:ℚ) < h := by
        rcases hout with hc | hc
        · have hxw : (x:ℚ) < w := by exact_mod_cast hc
          nlinarith
        · exact_mod_cast hc
      have hvx : (y:ℚ) * ((w:ℚ) / (h:ℚ)) ≤ (x:ℚ) := by
        rw [mul_div_assoc']
        rw [div_le_iff₀ hhQ]
        nlinarith
      have hvw : (y:ℚ) * ((w:ℚ) / (h:ℚ)) ≤ (w:ℚ) := by
        rw [mul_div_assoc']
        rw [div_le_iff₀ hhQ]
        nlinarith
      refine ⟨roundAspect_le _ _ _ hw1 hvw, ?_, roundAspect_le _ _ _ hx1 hvx,
        le_refl _, one_le_roundAspect _ _, hy1⟩
      have : (y:ℤ) < (h:ℤ) := by exact_mod_cast hyh
      omega
    · rw [if_neg hbr]
      dsimp only
      push_neg at hbr
      have kq : (x:ℚ) * h < w * y := (div_lt_div_iff₀ hyQ hhQ).mp hbr
      have hxw : (x:ℚ) < w := by
        rcases hout with hc | hc
        · exact_mod_cast hc
        · have hyh : (y:ℚ) < h := by exact_mod_cast hc
          nlinarith
      have hdivpos : (0:ℚ) < (w:ℚ) / (h:ℚ) := div_pos hwQ hhQ
      have hvy : (x:ℚ) / ((w:ℚ) / (h:ℚ)) ≤ (y:ℚ) := by
        rw [div_div_eq_mul_div, div_le_iff₀ hwQ]
        nlinarith
      have hvh : (x:ℚ) / ((w:ℚ) / (h:ℚ)) ≤ (h:ℚ) := by
        rw [div_div_eq_mul_div, div_le_iff₀ hwQ]
        nlinarith
      refine ⟨?_, roundAspect_le _ _ _ hh1 hvh, le_refl _,
        roundAspect_le _ _ _ hy1 hvy, hx1, one_le_roundAspect _ _⟩
      have : (x:ℤ) < (w:ℤ) := by exact_mod_cast hxw
      omega

lemma thumbnailSize_aspect (w h : ℕ) (x y : ℤ)
    (hw : 0 < w) (hh : 0 < h) (hx : 0 < x) (hy : 0 < y)
    (hne : ¬((w:ℤ) ≤ x ∧ (h:ℤ) ≤ y)) :
    |((thumbnailSize w h x y).1 : ℚ)
        - min ((x:ℚ)/(w:ℚ)) ((y:ℚ)/(h:ℚ)) * (w:ℚ)| ≤ 1
    ∧ |((thumbnailSize w h x y).2 : ℚ)
        - min ((x:ℚ)/(w:ℚ)) ((y:ℚ)/(h:ℚ)) * (h:ℚ)| ≤ 1
    ∧ ((thumbnailSize w h x y).1 = ⌊min ((x:ℚ)/(w:ℚ)) ((y:ℚ)/(h:ℚ)) * (w:ℚ)⌋
      ∨ (thumbnailSize w h x y).1 = ⌈min ((x:ℚ)/(w:ℚ)) ((y:ℚ)/(h:ℚ)) * (w:ℚ)⌉
      ∨ (thumbnailSize w h x y).1 = 1)
    ∧ ((thumbnailSize w h x y).2 = ⌊min ((x:ℚ)/(w:ℚ)) ((y:ℚ)/(h:ℚ)) * (h:ℚ)⌋
      ∨ (thumbnailSize w h x y).2 = ⌈min ((x:ℚ)/(w:ℚ)) ((y:ℚ)/(h:ℚ)) * (h:ℚ)⌉
      ∨ (thumbnailSize w h x y).2 = 1) := by
  have hwQ : (0:ℚ) < (w:ℚ) := by exact_mod_cast hw
  have hhQ : (0:ℚ) < (h:ℚ) := by exact_mod_cast hh
  have hxQ : (0:ℚ) < (x:ℚ) := by exact_mod_cast hx
  have hyQ : (0:ℚ) < (y:ℚ) := by exact_mod_cast hy
  unfold thumbnailSize
  rw [if_neg hne]
  by_cases hbr : (w:ℚ) / (h:ℚ) ≤ (x:ℚ) / (y:ℚ)
  · rw [if_pos hbr]
    dsimp only
    have kq : (w:ℚ) * y ≤ x * h := (div_le_div_iff₀ hhQ hyQ).mp hbr
    have hmin : min ((x:ℚ)/(w:ℚ)) ((y:ℚ)/(h:ℚ)) = (y:ℚ)/(h:ℚ) := by
      refine min_eq_right ?_
      rw [div_le_div_iff₀ hhQ hwQ]
      nlinarith
    have hvv : min ((x:ℚ)/(w:ℚ)) ((y:ℚ)/(h:ℚ)) * (w:ℚ)
        = (y:ℚ) * ((w:ℚ) / (h:ℚ)) := by rw [hmin]; ring
    have hsh : min ((x:ℚ)/(w:ℚ)) ((y:ℚ)/(h:ℚ)) * (h:ℚ) = (y:ℚ) := by
      rw [hmin]; exact div_mul_cancel₀ _ (ne_of_gt hhQ)
    have hv0 : (0:ℚ) ≤ (y:ℚ) * ((w:ℚ) / (h:ℚ)) := by positivity
    refine ⟨?_, ?_, ?_, ?_⟩
    · rw [hvv]; exact roundAspect_close _ _ hv0
    · rw [hsh]; simp
    · rw [hvv]
      rcases roundAspect_mem ((y:ℚ) * ((w:ℚ)/(h:ℚ)))
          (fun n => |(w:ℚ)/(h:ℚ) - (n:ℚ)/(y:ℚ)|) with hm | hm | ⟨hm, _⟩
      · exact Or.inl hm
      · exact Or.inr (Or.inl hm)
      · exact Or.inr (Or.inr hm)
    · rw [hsh]; simp
  · rw [if_neg hbr]
    dsimp only
    push_neg at hbr
    have kq : (x:ℚ) * h < w * y := (div_lt_div_iff₀ hyQ hhQ).mp hbr
    have hmin : min ((x:ℚ)/(w:ℚ)) ((y:ℚ)/(h:ℚ)) = (x:ℚ)/(w:ℚ) := by
      refine min_eq_left ?_
      rw [div_le_div_iff₀ hwQ hhQ]
      nlinarith
    have hvv : min ((x:ℚ)/(w:ℚ)) ((y:ℚ)/(h:ℚ)) * (h:ℚ)
        = (x:ℚ) / ((w:ℚ) / (h:ℚ)) := by
      rw [hmin, div_div_eq_mul_div]; ring
    have hsw : min ((x:ℚ)/(w:ℚ)) ((y:ℚ)/(h:ℚ)) * (w:ℚ) = (x:ℚ) := by
      rw [hmin]; exact div_mul_cancel₀ _ (ne_of_gt hwQ)
    have hv0 : (0:ℚ) ≤ (x:ℚ) / ((w:ℚ) / (h:ℚ)) := by positivity
    refine ⟨?_, ?_, ?_, ?_⟩
    · rw [hsw]; simp
    · rw [hvv]; exact roundAspect_close _ _ hv0
    · rw [hsw]; simp
    · rw [hvv]
      rcases roundAspect_mem ((x:ℚ) / ((w:ℚ)/(h:ℚ)))
          (fun n => if n = 0 then 0 else |(w:ℚ)/(h:ℚ) - (x:ℚ)/(n:ℚ)|)
        with hm | hm | ⟨hm, _⟩
      · exact Or.inl hm
      · exact Or.inr (Or.inl hm)
      · exact Or.inr (Or.inr hm)

lemma scale_image_size (P : Prims) (img : Img) (cfg : PipelineConfig)
    (hen : cfg.scaling_enabled = true)
    (hex : cfg.scaling.1 < (img.width:ℤ) ∨ cfg.scaling.2 < (img.height:ℤ)) :
    (scale_image P img cfg).width
      = (thumbnailSize img.width img.height cfg.scaling.1 cfg.scaling.2).1.toNat
    ∧ (scale_image P img cfg).height
      = (thumbnailSize img.width img.height cfg.scaling.1 cfg.scaling.2).2.toNat := by
  unfold scale_image Img.thumbnail
  rw [if_neg (by simp [hen]), if_pos hex]
  dsimp only
  by_cases hsz : thumbnailSize img.width img.height cfg.scaling.1 cfg.scaling.2
      = ((img.width : ℤ), (img.height : ℤ))
  · rw [if_pos hsz, hsz]
    simp
  · rw [if_neg hsz]
    exact ⟨rfl, rfl⟩

/-- C1: with orientation correction enabled and the EXIF orientation tag
present, `fix_orientation` applies exactly the documented transform for each
tag value 2–8 (tag 3 mapping pixel (x,y) to (w-1-x, h-1-y)); tag 1, any tag
outside 1–8, a missing tag and missing metadata all return the input image
unchanged, without error. -/
theorem fix_orientation_spec :
    (∀ (img : Img) (cfg : PipelineConfig) (e : List (ℕ × ℤ)),
      cfg.orientation_enabled = true → img.exif = some e →
        ((e.lookup orientationTag = some 2 →
            fix_orientation img cfg = flipLR img)
        ∧ (e.lookup orientationTag = some 3 →
            fix_orientation img cfg = rot180 img
            ∧ ∀ x y, (fix_orientation img cfg).px x y
                = img.px (img.width - 1 - x) (img.height - 1 - y))
        ∧ (e.lookup orientationTag = some 4 →
            fix_orientation img cfg = flipTB img)
        ∧ (e.lookup orientationTag = some 5 →
            fix_orientation img cfg = rot90 (flipLR img))
        ∧ (e.lookup orientationTag = some 6 →
            fix_orientation img cfg = rot270 img)
        ∧ (e.lookup orientationTag = some 7 →
            fix_orientation img cfg = rot270 (flipLR img))
        ∧ (e.lookup orientationTag = some 8 →
            fix_orientation img cfg = rot90 img)
        ∧ (∀ t : ℤ, e.lookup orientationTag = some t →
            (t = 1 ∨ t < 1 ∨ 8 < t) → fix_orientation img cfg = img)
        ∧ (e.lookup orientationTag = none → fix_orientation img cfg = img)))
    ∧ (∀ (img : Img) (cfg : PipelineConfig), img.exif = none →
        fix_orientation img cfg = img) := by
  constructor
  · intro img cfg e hen hex
    refine ⟨?_, ?_, ?_, ?_, ?_, ?_, ?_, ?_, ?_⟩
    · intro hl; simp [fix_orientation, hen, hex, hl]
    · intro hl
      refine ⟨by simp [fix_orientation, hen, hex, hl], ?_⟩
      intro x y
      simp [fix_orientation, hen, hex, hl, rot180]
    · intro hl; simp [fix_orientation, hen, hex, hl]
    · intro hl; simp [fix_orientation, hen, hex, hl]
    · intro hl; simp [fix_orientation, hen, hex, hl]
    · intro hl; simp [fix_orientation, hen, hex, hl]
    · intro hl; simp [fix_orientation, hen, hex, hl]
    · intro t hl hrange
      simp only [fix_orientation, hen, not_true_eq_false, if_false, hex, hl]
      rw [if_neg (by omega), if_neg (by omega), if_neg (by omega),
        if_neg (by omega), if_neg (by omega), if_neg (by omega),
        if_neg (by omega)]
    · intro hl; simp [fix_orientation, hen, hex, hl]
  · intro img cfg hex
    unfold fix_orientation
    rw [hex]
    split <;> rfl

/-- Witness for C1 at a concrete image with orientation tag 3. -/
theorem fix_orientation_spec_witness :
    baseCfg.orientation_enabled = true
    ∧ (mkImg 4 3 "RGB" (some [(orientationTag, 3)])).exif
        = some [(orientationTag, 3)]
    ∧ List.lookup orientationTag [(orientationTag, 3)] = some 3
    ∧ fix_orientation (mkImg 4 3 "RGB" (some [(orientationTag, 3)])) baseCfg
        = rot180 (mkImg 4 3 "RGB" (some [(orientationTag, 3)])) := by
  refine ⟨rfl, rfl, rfl, ?_⟩
  exact ((fix_orientation_spec.1 (mkImg 4 3 "RGB" (some [(orientationTag, 3)]))
    baseCfg [(orientationTag, 3)] rfl rfl).2.1 rfl).1

/-- C2: for positive image dimensions and a positive configured maximum box,
`scale_image` never increases either dimension; when scaling is disabled, or
both dimensions are already within the configured maximums, the output is
the input image itself — no upscaling ever occurs. -/
theorem scale_image_no_upscale (P : Prims) (img : Img) (cfg : PipelineConfig)
    (hw : 0 < img.width) (hh : 0 < img.height)
    (hx : 0 < cfg.scaling.1) (hy : 0 < cfg.scaling.2) :
    ((scale_image P img cfg).width ≤ img.width
      ∧ (scale_image P img cfg).height ≤ img.height)
    ∧ (cfg.scaling_enabled = false → scale_image P img cfg = img)
    ∧ ((img.width : ℤ) ≤ cfg.scaling.1 → (img.height : ℤ) ≤ cfg.scaling.2 →
        scale_image P img cfg = img) := by
  have hdis : cfg.scaling_enabled = false → scale_image P img cfg = img := by
    intro hd
    unfold scale_image
    rw [if_pos (by simp [hd])]
  have hwithin : (img.width : ℤ) ≤ cfg.scaling.1 →
      (img.height : ℤ) ≤ cfg.scaling.2 → scale_image P img cfg = img := by
    intro h1 h2
    unfold scale_image
    by_cases hen : cfg.scaling_enabled
    · rw [if_neg (by simp [hen]), if_neg (by omega)]
    · rw [if_pos (by simp [hen])]
  refine ⟨?_, hdis, hwithin⟩
  by_cases hen : cfg.scaling_enabled
  · by_cases hex : cfg.scaling.1 < (img.width:ℤ) ∨ cfg.scaling.2 < (img.height:ℤ)
    · obtain ⟨e1, e2⟩ := scale_image_size P img cfg hen hex
      obtain ⟨b1, b2, _, _, _, _⟩ :=
        thumbnailSize_bounds img.width img.height cfg.scaling.1 cfg.scaling.2
          hw hh hx hy
      constructor
      · rw [e1]; omega
      · rw [e2]; omega
    · push_neg at hex
      rw [hwithin hex.1 hex.2]
      exact ⟨le_refl _, le_refl _⟩
  · rw [hdis (by simpa using hen)]
    exact ⟨le_refl _, le_refl _⟩

/-- Witness for C2 at a concrete 5×3 image with a 3×3 box. -/
theorem scale_image_no_upscale_witness :
    0 < (mkImg 5 3 "RGB" none).width ∧ 0 < (mkImg 5 3 "RGB" none).height
    ∧ 0 < cfg33.scaling.1 ∧ 0 < cfg33.scaling.2
    ∧ (((scale_image trivPrims (mkImg 5 3 "RGB" none) cfg33).width
          ≤ (mkImg 5 3 "RGB" none).width
        ∧ (scale_image trivPrims (mkImg 5 3 "RGB" none) cfg33).height
          ≤ (mkImg 5 3 "RGB" none).height)
      ∧ (cfg33.scaling_enabled = false →
          scale_image trivPrims (mkImg 5 3 "RGB" none) cfg33
            = mkImg 5 3 "RGB" none)
      ∧ (((mkImg 5 3 "RGB" none).width : ℤ) ≤ cfg33.scaling.1 →
          ((mkImg 5 3 "RGB" none).height : ℤ) ≤ cfg33.scaling.2 →
          scale_image trivPrims (mkImg 5 3 "RGB" none) cfg33
            = mkImg 5 3 "RGB" none)) :=
  ⟨by decide, by decide, by decide, by decide,
   scale_image_no_upscale trivPrims (mkImg 5 3 "RGB" none) cfg33
     (by decide) (by decide) (by decide) (by decide)⟩

lemma floor_eval {q : ℚ} {n : ℤ} (h1 : (n:ℚ) ≤ q) (h2 : q < n + 1) : ⌊q⌋ = n :=
  Int.floor_eq_iff.mpr ⟨h1, h2⟩

lemma ceil_eval {q : ℚ} {n : ℤ} (h1 : (n:ℚ) - 1 < q) (h2 : q ≤ n) : ⌈q⌉ = n :=
  Int.ceil_eq_iff.mpr ⟨h1, h2⟩

lemma thumbEval533 : thumbnailSize 5 3 3 3 = (3, 2) := by
  unfold thumbnailSize roundAspect
  rw [if_neg (by decide), if_neg (by push_cast; norm_num)]
  have hv : ((3:ℤ):ℚ) / (((5:ℕ):ℚ)/((3:ℕ):ℚ)) = 9/5 := by push_cast; norm_num
  rw [hv]
  have hfl : ⌊(9:ℚ)/5⌋ = 1 := floor_eval (by norm_num) (by norm_num)
  have hcl : ⌈(9:ℚ)/5⌉ = 2 := ceil_eval (by norm_num) (by norm_num)
  rw [hfl, hcl]
  norm_num
  rw [abs_of_nonneg (by norm_num), abs_of_nonneg (by norm_num)]
  norm_num

/-- C6 (amended): for an image exceeding the configured bounds (all
dimensions positive), `scale_image` applies the uniform factor
s = min(max_w/width, max_h/height) to both dimensions up to rounding: each
output dimension is within 1 pixel of s times the input dimension — hence
aspect ratio is preserved within integer-rounding tolerance — and equals the
floor or the ceiling of s times the input dimension (or the clamp value 1),
the choice minimizing aspect deviation rather than always the floor. -/
theorem scale_image_uniform_factor (P : Prims) (img : Img) (cfg : PipelineConfig)
    (hw : 0 < img.width) (hh : 0 < img.height)
    (hx : 0 < cfg.scaling.1) (hy : 0 < cfg.scaling.2)
    (hen : cfg.scaling_enabled = true)
    (hex : cfg.scaling.1 < (img.width : ℤ) ∨ cfg.scaling.2 < (img.height : ℤ)) :
    |((scale_image P img cfg).width : ℚ)
        - min ((cfg.scaling.1 : ℚ) / (img.width : ℚ))
            ((cfg.scaling.2 : ℚ) / (img.height : ℚ)) * (img.width : ℚ)| ≤ 1
    ∧ |((scale_image P img cfg).height : ℚ)
        - min ((cfg.scaling.1 : ℚ) / (img.width : ℚ))
            ((cfg.scaling.2 : ℚ) / (img.height : ℚ)) * (img.height : ℚ)| ≤ 1
    ∧ (((scale_image P img cfg).width : ℤ)
          = ⌊min ((cfg.scaling.1 : ℚ) / (img.width : ℚ))
              ((cfg.scaling.2 : ℚ) / (img.height : ℚ)) * (img.width : ℚ)⌋
      ∨ ((scale_image P img cfg).width : ℤ)
          = ⌈min ((cfg.scaling.1 : ℚ) / (img.width : ℚ))
              ((cfg.scaling.2 : ℚ) / (img.height : ℚ)) * (img.width : ℚ)⌉
      ∨ (scale_image P img cfg).width = 1)
    ∧ (((scale_image P img cfg).height : ℤ)
          = ⌊min ((cfg.scaling.1 : ℚ) / (img.width : ℚ))
              ((cfg.scaling.2 : ℚ) / (img.height : ℚ)) * (img.height : ℚ)⌋
      ∨ ((scale_image P img cfg).height : ℤ)
          = ⌈min ((cfg.scaling.1 : ℚ) / (img.width : ℚ))
              ((cfg.scaling.2 : ℚ) / (img.height : ℚ)) * (img.height : ℚ)⌉
      ∨ (scale_image P img cfg).height = 1) := by
  obtain ⟨e1, e2⟩ := scale_image_size P img cfg hen hex
  obtain ⟨_, _, _, _, g1, g2⟩ :=
    thumbnailSize_bounds img.width img.height cfg.scaling.1 cfg.scaling.2
      hw hh hx hy
  have hne : ¬(((img.width : ℤ) ≤ cfg.scaling.1)
      ∧ ((img.height : ℤ) ≤ cfg.scaling.2)) := by
    omega
  obtain ⟨a1, a2, a3, a4⟩ :=
    thumbnailSize_aspect img.width img.height cfg.scaling.1 cfg.scaling.2
      hw hh hx hy hne
  set ts := thumbnailSize img.width img.height cfg.scaling.1 cfg.scaling.2
    with hts
  have h01 : (0:ℤ) ≤ ts.1 := by omega
  have h02 : (0:ℤ) ≤ ts.2 := by omega
  have hz1 : ((ts.1.toNat : ℕ) : ℤ) = ts.1 := Int.toNat_of_nonneg h01
  have hz2 : ((ts.2.toNat : ℕ) : ℤ) = ts.2 := Int.toNat_of_nonneg h02
  have hq1 : ((ts.1.toNat : ℕ) : ℚ) = ((ts.1 : ℤ) : ℚ) := by exact_mod_cast hz1
  have hq2 : ((ts.2.toNat : ℕ) : ℚ) = ((ts.2 : ℤ) : ℚ) := by exact_mod_cast hz2
  refine ⟨?_, ?_, ?_, ?_⟩
  · rw [e1, hq1]; exact a1
  · rw [e2, hq2]; exact a2
  · rw [e1]
    rcases a3 with m | m | m
    · exact Or.inl (by rw [hz1, m])
    · exact Or.inr (Or.inl (by rw [hz1, m]))
    · exact Or.inr (Or.inr (by omega))
  · rw [e2]
    rcases a4 with m | m | m
    · exact Or.inl (by rw [hz2, m])
    · exact Or.inr (Or.inl (by rw [hz2, m]))
    · exact Or.inr (Or.inr (by omega))

/-- Counterexample to C6 as stated: a 5×3 image against a 3×3 box is scaled
by the code to 3×2 (rounding the non-binding dimension to the nearest value
by aspect closeness), whereas flooring both scaled dimensions as the claim
states would give 3×1. -/
theorem scale_image_floor_counterexample :
    ((scale_image trivPrims (mkImg 5 3 "RGB" none) cfg33).width,
      (scale_image trivPrims (mkImg 5 3 "RGB" none) cfg33).height) = (3, 2)
    ∧ floorScaleSpec 5 3 3 3 = (3, 1)
    ∧ (((3, 2) : ℕ × ℕ) ≠ (3, 1)) := by
  refine ⟨?_, ?_, by decide⟩
  · obtain ⟨e1, e2⟩ :=
      scale_image_size trivPrims (mkImg 5 3 "RGB" none) cfg33 rfl (by decide)
    rw [e1, e2, show thumbnailSize (mkImg 5 3 "RGB" none).width
        (mkImg 5 3 "RGB" none).height cfg33.scaling.1 cfg33.scaling.2 = (3, 2)
      from thumbEval533]
    rfl
  · unfold floorScaleSpec
    push_cast
    rw [min_eq_left (show (3:ℚ)/5 ≤ 3/3 by norm_num)]
    rw [show (5:ℚ) * (3/5) = 3 by norm_num, show (3:ℚ) * (3/5) = 9/5 by norm_num]
    rw [show ⌊(3:ℚ)⌋ = (3:ℤ) from floor_eval (by norm_num) (by norm_num)]
    rw [show ⌊(9:ℚ)/5⌋ = (1:ℤ) from floor_eval (by norm_num) (by norm_num)]

/-- Witness for C6's amended theorem at a concrete 5×3 image with a 3×3
box. -/
theorem scale_image_uniform_factor_witness :
    0 < (mkImg 5 3 "RGB" none).width ∧ 0 < (mkImg 5 3 "RGB" none).height
    ∧ 0 < cfg33.scaling.1 ∧ 0 < cfg33.scaling.2
    ∧ cfg33.scaling_enabled = true
    ∧ (cfg33.scaling.1 < ((mkImg 5 3 "RGB" none).width : ℤ)
        ∨ cfg33.scaling.2 < ((mkImg 5 3 "RGB" none).height : ℤ))
    ∧ |((scale_image trivPrims (mkImg 5 3 "RGB" none) cfg33).width : ℚ)
        - min ((cfg33.scaling.1 : ℚ) / ((mkImg 5 3 "RGB" none).width : ℚ))
            ((cfg33.scaling.2 : ℚ) / ((mkImg 5 3 "RGB" none).height : ℚ))
          * ((mkImg 5 3 "RGB" none).width : ℚ)| ≤ 1 :=
  ⟨by decide, by decide, by decide, by decide, rfl, by decide,
   (scale_image_uniform_factor trivPrims (mkImg 5 3 "RGB" none) cfg33
     (by decide) (by decide) (by decide) (by decide) rfl (by decide)).1⟩

/-- C3: the paste offset is computed from the configured position and
padding: the four corner positions offset by padding from the corresponding
edges, center splits the remaining space by floor division, and an
unrecognized position falls back to top-left; in the documented example
(bottom-right, padding 10, 1000×800 image, 100×50 watermark)
`add_watermark` pastes at offset (890, 740). -/
theorem add_watermark_position_spec :
    (∀ P : Prims,
      add_watermark P (mkImg 1000 800 "RGB" none) cfgWm fsWm
        = Except.ok (Img.convert P
            (alpha_composite P (Img.convert P (mkImg 1000 800 "RGB" none) "RGBA")
              (pasteMask P (Img.new "RGBA" (1000, 800) ⟨0, 0, 0, 0⟩)
                (Img.convert P (mkImg 100 50 "RGBA" none) "RGBA") (890, 740)))
            "RGB"))
    ∧ watermarkPos "bottom-right" 10 1000 800 100 50 = (890, 740)
    ∧ (∀ pad iw ih ww wh : ℤ,
        watermarkPos "top-left" pad iw ih ww wh = (pad, pad)
        ∧ watermarkPos "top-right" pad iw ih ww wh = (iw - ww - pad, pad)
        ∧ watermarkPos "bottom-left" pad iw ih ww wh = (pad, ih - wh - pad)
        ∧ watermarkPos "bottom-right" pad iw ih ww wh
            = (iw - ww - pad, ih - wh - pad)
        ∧ watermarkPos "center" pad iw ih ww wh
            = (Int.fdiv (iw - ww) 2, Int.fdiv (ih - wh) 2))
    ∧ (∀ (pos : String) (pad iw ih ww wh : ℤ),
        pos ≠ "top-left" → pos ≠ "top-right" → pos ≠ "bottom-left" →
        pos ≠ "bottom-right" → pos ≠ "center" →
        watermarkPos pos pad iw ih ww wh = (pad, pad)) := by
  refine ⟨fun P => rfl, by decide, ?_, ?_⟩
  · intro pad iw ih ww wh
    exact ⟨rfl, rfl, rfl, rfl, rfl⟩
  · intro pos pad iw ih ww wh h1 h2 h3 h4 h5
    unfold watermarkPos
    rw [if_neg h1, if_neg h2, if_neg h3, if_neg h4, if_neg h5]

/-- Witness for C3's unrecognized-position fallback at a concrete
position string. -/
theorem add_watermark_position_spec_witness :
    ("middle" ≠ "top-left") ∧ ("middle" ≠ "top-right")
    ∧ ("middle" ≠ "bottom-left") ∧ ("middle" ≠ "bottom-right")
    ∧ ("middle" ≠ "center")
    ∧ watermarkPos "middle" 7 100 100 20 20 = (7, 7) :=
  ⟨by decide, by decide, by decide, by decide, by decide,
   add_watermark_position_spec.2.2.2 "middle" 7 100 100 20 20
     (by decide) (by decide) (by decide) (by decide) (by decide)⟩

/-- C9: `add_watermark` with the stage disabled, or with the configured
watermark asset file absent from the filesystem, returns the input image
unchanged and never raises. -/
theorem add_watermark_noop_spec :
    (∀ (P : Prims) (img : Img) (cfg : PipelineConfig)
        (fs : List String → Option Img),
      cfg.watermark.enabled.getD false = false →
      add_watermark P img cfg fs = Except.ok img)
    ∧ (∀ (P : Prims) (img : Img) (cfg : PipelineConfig)
        (fs : List String → Option Img) (p : List String),
      cfg.watermark.path = some p → fs p = none →
      add_watermark P img cfg fs = Except.ok img) := by
  constructor
  · intro P img cfg fs hdis
    unfold add_watermark
    rw [if_pos (by simp [hdis])]
  · intro P img cfg fs p hp hfs
    unfold add_watermark
    by_cases hen : cfg.watermark.enabled.getD false
    · rw [if_neg (by simp [hen])]
      simp only [hp, hfs]
    · rw [if_pos (by simp [hen])]

/-- Witness for C9: disabled stage, and enabled stage with a missing asset
file, both return the input unchanged. -/
theorem add_watermark_noop_spec_witness :
    baseCfg.watermark.enabled.getD false = false
    ∧ add_watermark trivPrims (mkImg 4 4 "RGB" none) baseCfg fsWm
        = Except.ok (mkImg 4 4 "RGB" none)
    ∧ cfgWmMissing.watermark.path = some ["missing.png"]
    ∧ fsWm ["missing.png"] = none
    ∧ add_watermark trivPrims (mkImg 4 4 "RGB" none) cfgWmMissing fsWm
        = Except.ok (mkImg 4 4 "RGB" none) :=
  ⟨rfl,
   add_watermark_noop_spec.1 trivPrims (mkImg 4 4 "RGB" none) baseCfg fsWm rfl,
   rfl, rfl,
   add_watermark_noop_spec.2 trivPrims (mkImg 4 4 "RGB" none) cfgWmMissing fsWm
     ["missing.png"] rfl rfl⟩

/-- C10: with the watermark stage enabled and the asset file present but the
"opacity" key absent, `add_watermark` fails with the TypeError raised by
comparing None against 1.0 instead of applying a default opacity. -/
theorem add_watermark_opacity_typeerror
    (P : Prims) (img : Img) (cfg : PipelineConfig)
    (fs : List String → Option Img) (p : List String) (wm : Img)
    (hen : cfg.watermark.enabled.getD false = true)
    (hp : cfg.watermark.path = some p) (hfs : fs p = some wm)
    (hop : cfg.watermark.opacity = none) :
    add_watermark P img cfg fs
      = Except.error "TypeError: unorderable NoneType and float" := by
  unfold add_watermark
  rw [if_neg (by simp [hen])]
  simp only [hp, hfs, hop]

/-- Witness for C10 at a concrete configuration lacking the opacity key. -/
theorem add_watermark_opacity_typeerror_witness :
    cfgWmNoOpacity.watermark.enabled.getD false = true
    ∧ cfgWmNoOpacity.watermark.path = some ["wm.png"]
    ∧ fsWm ["wm.png"] = some (mkImg 100 50 "RGBA" none)
    ∧ cfgWmNoOpacity.watermark.opacity = none
    ∧ add_watermark trivPrims (mkImg 1000 800 "RGB" none) cfgWmNoOpacity fsWm
        = Except.error "TypeError: unorderable NoneType and float" :=
  ⟨rfl, rfl, rfl, rfl,
   add_watermark_opacity_typeerror trivPrims (mkImg 1000 800 "RGB" none)
     cfgWmNoOpacity fsWm ["wm.png"] (mkImg 100 50 "RGBA" none) rfl rfl rfl rfl⟩

/-- C4: the encoder's output path is `{output_dir}/{stem}{suffix}.webp`, the
output directory is the target of a recursive, exist-ok mkdir, and the path
is deterministic — it depends only on the source file's name and the
configuration, not on the rest of the source path or on any run state. -/
theorem output_path_spec :
    (∀ (cfg : ConfigDict) (fp od : List String),
      generate_output_path cfg fp (some od)
        = Except.ok
            (od ++ [pathStem (lastName fp) ++ cfg.suffix.getD "" ++ ".webp"],
             ⟨od, true, true⟩))
    ∧ (∀ (img : Img) (fp : List String) (cfg : PipelineConfig),
        ∃ s : WebpSave,
          save_webp img fp cfg
            = Except.ok (cfg.output_dir
                ++ [pathStem (lastName fp)
                    ++ cfg.webp_settings.suffix.getD "" ++ ".webp"], s)
          ∧ s.path = cfg.output_dir
              ++ [pathStem (lastName fp)
                  ++ cfg.webp_settings.suffix.getD "" ++ ".webp"]
          ∧ s.mkdir = ⟨cfg.output_dir, true, true⟩)
    ∧ (∀ (cfg : ConfigDict) (fp1 fp2 : List String) (od : Option (List String)),
        lastName fp1 = lastName fp2 →
        generate_output_path cfg fp1 od = generate_output_path cfg fp2 od) := by
  refine ⟨?_, ?_, ?_⟩
  · intro cfg fp od
    rfl
  · intro img fp cfg
    exact ⟨_, rfl, rfl, rfl⟩
  · intro cfg fp1 fp2 od h
    unfold generate_output_path
    rw [h]

/-- Witness for C4's filename determinism at two source paths sharing a
file name. -/
theorem output_path_spec_witness :
    lastName ["a", "photo.jpg"] = lastName ["b", "sub", "photo.jpg"]
    ∧ generate_output_path ConfigDict.empty ["a", "photo.jpg"] (some ["out"])
        = generate_output_path ConfigDict.empty ["b", "sub", "photo.jpg"]
            (some ["out"]) :=
  ⟨rfl, output_path_spec.2.2 ConfigDict.empty ["a", "photo.jpg"]
    ["b", "sub", "photo.jpg"] (some ["out"]) rfl⟩

/-- C7: `fix_colormode` with target RGB or RGBA leaves an RGBA image
unchanged, converts an LA image to RGBA, and otherwise converts directly to
the target; target GRAY converts to L; any other target converts directly;
disabled normalization is the identity. -/
theorem fix_colormode_spec (P : Prims) (img : Img) (cfg : PipelineConfig) :
    (cfg.colormode_enabled = false → fix_colormode P img cfg = img)
    ∧ (cfg.colormode_enabled = true →
        (((cfg.colormode = "RGB" ∨ cfg.colormode = "RGBA") →
            img.mode = "RGBA" → fix_colormode P img cfg = img)
        ∧ ((cfg.colormode = "RGB" ∨ cfg.colormode = "RGBA") →
            img.mode = "LA" →
            fix_colormode P img cfg = Img.convert P img "RGBA")
        ∧ ((cfg.colormode = "RGB" ∨ cfg.colormode = "RGBA") →
            img.mode ≠ "RGBA" → img.mode ≠ "LA" →
            fix_colormode P img cfg = Img.convert P img cfg.colormode)
        ∧ (cfg.colormode = "GRAY" →
            fix_colormode P img cfg = Img.convert P img "L")
        ∧ (cfg.colormode ≠ "RGB" → cfg.colormode ≠ "RGBA" →
            cfg.colormode ≠ "GRAY" →
            fix_colormode P img cfg = Img.convert P img cfg.colormode))) := by
  constructor
  · intro h
    unfold fix_colormode
    rw [if_pos (by simp [h])]
  · intro hen
    refine ⟨?_, ?_, ?_, ?_, ?_⟩
    · intro hcm hm
      unfold fix_colormode
      rw [if_neg (by simp [hen]), if_pos hcm, if_pos hm]
    · intro hcm hm
      unfold fix_colormode
      have hne : img.mode ≠ "RGBA" := by rw [hm]; decide
      rw [if_neg (by simp [hen]), if_pos hcm, if_neg hne, if_pos hm]
    · intro hcm h1 h2
      unfold fix_colormode
      rw [if_neg (by simp [hen]), if_pos hcm, if_neg h1, if_neg h2]
    · intro hcm
      unfold fix_colormode
      have h1 : ¬(cfg.colormode = "RGB" ∨ cfg.colormode = "RGBA") := by
        rw [hcm]; decide
      rw [if_neg (by simp [hen]), if_neg h1, if_pos hcm]
    · intro h1 h2 h3
      unfold fix_colormode
      rw [if_neg (by simp [hen]), if_neg (by tauto), if_neg h3]

/-- Witness for C7 at an LA image with target RGB. -/
theorem fix_colormode_spec_witness :
    baseCfg.colormode_enabled = true
    ∧ (baseCfg.colormode = "RGB" ∨ baseCfg.colormode = "RGBA")
    ∧ (mkImg 4 4 "LA" none).mode = "LA"
    ∧ fix_colormode trivPrims (mkImg 4 4 "LA" none) baseCfg
        = Img.convert trivPrims (mkImg 4 4 "LA" none) "RGBA" :=
  ⟨rfl, Or.inl rfl, rfl,
   ((fix_colormode_spec trivPrims (mkImg 4 4 "LA" none) baseCfg).2 rfl).2.1
     (Or.inl rfl) rfl⟩

lemma optEnh_eq (e : ℚ → Img → Img) (o : Option ℚ) (img : Img) :
    (if o.getD 1 ≠ 1 then e (o.getD 1) img else img) = optEnh e o img := by
  cases o with
  | none => simp [optEnh]
  | some v => simp only [Option.getD_some, optEnh]

lemma optEnh_one (e : ℚ → Img → Img) (o : Option ℚ) (img : Img)
    (h : o.getD 1 = 1) : optEnh e o img = img := by
  cases o with
  | none => rfl
  | some v =>
    simp only [Option.getD_some] at h
    simp [optEnh, h]

/-- C8: `adjust_image` is the identity when disabled or when every factor is
absent or equal to 1.0; when enabled it applies brightness, contrast and
sharpness in that fixed order, each only when its factor is present and
differs from 1.0 (a trivial factor skips only that adjustment). -/
theorem adjust_image_spec (P : Prims) (img : Img) (cfg : PipelineConfig) :
    (cfg.adjustments_enabled = false → adjust_image P img cfg = img)
    ∧ (cfg.adjustments_enabled = true →
        adjust_image P img cfg
          = optEnh P.sharp cfg.adjustments.sharpness
              (optEnh P.contrast cfg.adjustments.contrast
                (optEnh P.bright cfg.adjustments.brightness img)))
    ∧ (cfg.adjustments.brightness.getD 1 = 1 →
        cfg.adjustments.contrast.getD 1 = 1 →
        cfg.adjustments.sharpness.getD 1 = 1 →
        adjust_image P img cfg = img) := by
  have hdis : cfg.adjustments_enabled = false → adjust_image P img cfg = img := by
    intro h
    unfold adjust_image
    rw [if_pos (by simp [h])]
  have hmain : cfg.adjustments_enabled = true →
      adjust_image P img cfg
        = optEnh P.sharp cfg.adjustments.sharpness
            (optEnh P.contrast cfg.adjustments.contrast
              (optEnh P.bright cfg.adjustments.brightness img)) := by
    intro hen
    unfold adjust_image
    rw [if_neg (by simp [hen])]
    dsimp only
    rw [optEnh_eq, optEnh_eq, optEnh_eq]
  refine ⟨hdis, hmain, ?_⟩
  intro h1 h2 h3
  by_cases hen : cfg.adjustments_enabled
  · rw [hmain hen, optEnh_one _ _ _ h1, optEnh_one _ _ _ h2, optEnh_one _ _ _ h3]
  · exact hdis (by simpa using hen)

/-- Witness for C8 with every factor absent. -/
theorem adjust_image_spec_witness :
    baseCfg.adjustments.brightness.getD 1 = 1
    ∧ baseCfg.adjustments.contrast.getD 1 = 1
    ∧ baseCfg.adjustments.sharpness.getD 1 = 1
    ∧ adjust_image trivPrims (mkImg 2 2 "RGB" none) baseCfg
        = mkImg 2 2 "RGB" none :=
  ⟨rfl, rfl, rfl,
   (adjust_image_spec trivPrims (mkImg 2 2 "RGB" none) baseCfg).2.2 rfl rfl rfl⟩

lemma thumbnail_dims (P : Prims) (img : Img) (x y : ℤ) :
    (Img.thumbnail P img x y).width
      = (thumbnailSize img.width img.height x y).1.toNat
    ∧ (Img.thumbnail P img x y).height
      = (thumbnailSize img.width img.height x y).2.toNat := by
  unfold Img.thumbnail
  dsimp only
  by_cases hsz : thumbnailSize img.width img.height x y
      = ((img.width : ℤ), (img.height : ℤ))
  · rw [if_pos hsz, hsz]
    simp
  · rw [if_neg hsz]
    exact ⟨rfl, rfl⟩

lemma thumbEval100 : thumbnailSize 100 100 50 25 = (25, 25) := by
  unfold thumbnailSize roundAspect
  rw [if_neg (by decide), if_pos (by push_cast; norm_num)]
  have hv : ((25:ℤ):ℚ) * (((100:ℕ):ℚ)/((100:ℕ):ℚ)) = 25 := by push_cast; norm_num
  rw [hv]
  rw [show ⌊(25:ℚ)⌋ = (25:ℤ) from floor_eval (by norm_num) (by norm_num)]
  rw [show ⌈(25:ℚ)⌉ = (25:ℤ) from ceil_eval (by norm_num) (by norm_num)]
  simp only [ite_self]
  decide

/-- C5 (amended): an enabled blurred derivative resizes the corrected image
into the configured width×height box with thumbnail semantics — aspect
preserved and never upscaling, not a direct resize to that size — then
applies the Gaussian blur of the configured radius, then saves the result as
WebP with the blur config's quality and method at the generated path. -/
theorem create_blurred_spec (P : Prims) (img : Img) (fp : List String)
    (cfg : PipelineConfig) (W H : ℤ) (r : ℚ) (d : List String)
    (hen : cfg.blur.enabled.getD false = true)
    (hW : cfg.blur.width = some W) (hH : cfg.blur.height = some H)
    (hr : cfg.blur.radius = some r) (hd : cfg.blur.path = some d)
    (hw : 0 < img.width) (hh : 0 < img.height) (hWp : 0 < W) (hHp : 0 < H) :
    ∃ rimg : Img,
      recreate_resize_image P img cfg.blur = Except.ok rimg
      ∧ rimg.width ≤ img.width ∧ rimg.height ≤ img.height
      ∧ (rimg.width : ℤ) ≤ W ∧ (rimg.height : ℤ) ≤ H
      ∧ create_blurred P img fp cfg
          = Except.ok (some
              (d ++ [pathStem (lastName fp) ++ cfg.blur.suffix.getD "" ++ ".webp"],
               ⟨d ++ [pathStem (lastName fp) ++ cfg.blur.suffix.getD "" ++ ".webp"],
                P.blur r rimg, cfg.blur.quality, cfg.blur.method, none,
                ⟨d, true, true⟩⟩)) := by
  have hrec : recreate_resize_image P img cfg.blur
      = Except.ok (Img.thumbnail P
          (Img.pasteFull (Img.new img.mode (img.width, img.height) ⟨0,0,0,0⟩) img)
          W H) := by
    unfold recreate_resize_image
    rw [hW, hH]
  obtain ⟨ed1, ed2⟩ := thumbnail_dims P
    (Img.pasteFull (Img.new img.mode (img.width, img.height) ⟨0,0,0,0⟩) img) W H
  have hcw : (Img.pasteFull (Img.new img.mode (img.width, img.height)
      ⟨0,0,0,0⟩) img).width = img.width := rfl
  have hch : (Img.pasteFull (Img.new img.mode (img.width, img.height)
      ⟨0,0,0,0⟩) img).height = img.height := rfl
  rw [hcw, hch] at ed1 ed2
  obtain ⟨b1, b2, b3, b4, b5, b6⟩ :=
    thumbnailSize_bounds img.width img.height W H hw hh hWp hHp
  refine ⟨_, hrec, ?_, ?_, ?_, ?_, ?_⟩
  · rw [ed1]; omega
  · rw [ed2]; omega
  · rw [ed1]; omega
  · rw [ed2]; omega
  · unfold create_blurred
    rw [if_neg (by simp [hen])]
    rw [hrec]
    simp only [Except.bind]
    rw [hr]
    unfold generate_output_path
    simp only [hd]
    rfl

/-- Counterexample to C5 as stated: for a 100×100 image with a configured
50×25 blur target, the code's resize step produces a 25×25 image (bounding
box constrained, aspect preserved), not the 50×25 of a direct resize. -/
theorem create_blurred_direct_resize_counterexample :
    Except.map (fun r => (r.width, r.height))
        (recreate_resize_image trivPrims (mkImg 100 100 "RGB" none) blurCfgD)
      = Except.ok ((25, 25) : ℕ × ℕ)
    ∧ ((directResizeSpec trivPrims (mkImg 100 100 "RGB" none) 50 25).width,
        (directResizeSpec trivPrims (mkImg 100 100 "RGB" none) 50 25).height)
      = ((50, 25) : ℕ × ℕ)
    ∧ (((25, 25) : ℕ × ℕ) ≠ ((50, 25) : ℕ × ℕ)) := by
  refine ⟨?_, by decide, by decide⟩
  have hrec : recreate_resize_image trivPrims (mkImg 100 100 "RGB" none) blurCfgD
      = Except.ok (Img.thumbnail trivPrims
          (Img.pasteFull (Img.new "RGB" (100, 100) ⟨0,0,0,0⟩)
            (mkImg 100 100 "RGB" none)) 50 25) := rfl
  rw [hrec]
  obtain ⟨ed1, ed2⟩ := thumbnail_dims trivPrims
    (Img.pasteFull (Img.new "RGB" (100, 100) ⟨0,0,0,0⟩)
      (mkImg 100 100 "RGB" none)) 50 25
  have hcw : (Img.pasteFull (Img.new "RGB" (100, 100) ⟨0,0,0,0⟩)
      (mkImg 100 100 "RGB" none)).width = 100 := rfl
  have hch : (Img.pasteFull (Img.new "RGB" (100, 100) ⟨0,0,0,0⟩)
      (mkImg 100 100 "RGB" none)).height = 100 := rfl
  rw [hcw, hch, thumbEval100] at ed1 ed2
  simp only [Except.map]
  rw [ed1, ed2]
  rfl

/-- Witness for C5's amended theorem at a concrete 100×100 image and 50×25
blur target. -/
theorem create_blurred_spec_witness :
    cfgBlur.blur.enabled.getD false = true
    ∧ cfgBlur.blur.width = some 50 ∧ cfgBlur.blur.height = some 25
    ∧ cfgBlur.blur.radius = some 2 ∧ cfgBlur.blur.path = some ["blurred"]
    ∧ (∃ rimg : Img,
        recreate_resize_image trivPrims (mkImg 100 100 "RGB" none) cfgBlur.blur
          = Except.ok rimg
        ∧ rimg.width ≤ (mkImg 100 100 "RGB" none).width
        ∧ rimg.height ≤ (mkImg 100 100 "RGB" none).height
        ∧ (rimg.width : ℤ) ≤ 50 ∧ (rimg.height : ℤ) ≤ 25
        ∧ create_blurred trivPrims (mkImg 100 100 "RGB" none)
            ["input", "photo.jpg"] cfgBlur
            = Except.ok (some
                (["blurred"] ++ [pathStem (lastName ["input", "photo.jpg"])
                    ++ cfgBlur.blur.suffix.getD "" ++ ".webp"],
                 ⟨["blurred"] ++ [pathStem (lastName ["input", "photo.jpg"])
                    ++ cfgBlur.blur.suffix.getD "" ++ ".webp"],
                  trivPrims.blur 2 rimg, cfgBlur.blur.quality,
                  cfgBlur.blur.method, none, ⟨["blurred"], true, true⟩⟩))) :=
  ⟨rfl, rfl, rfl, rfl, rfl,
   create_blurred_spec trivPrims (mkImg 100 100 "RGB" none) ["input", "photo.jpg"]
     cfgBlur 50 25 2 ["blurred"] rfl rfl rfl rfl rfl
     (by decide) (by decide) (by decide) (by decide)⟩

end ImgOpt
